import Mathlib

/-!
Shallow embedding of the `jim` terminal editor (src/backend.rs, src/main.rs).

Rust `String`s are UTF-8 byte sequences; we embed them as `List Nat` of byte
values, so `len()` is the list length and `split_at` is `take`/`drop`.
`usize` arithmetic is embedded as `Nat`: additions are modelled exactly
(overflow would need values near 2^64, unreachable from the sizes involved),
while a subtraction that would underflow in Rust is a panic in debug builds,
which we model by returning `none` from the enclosing operation.
`saturating_sub` on `usize` coincides with truncated `Nat` subtraction.
-/

namespace Jim

/-- A Rust string, viewed as its UTF-8 byte sequence. -/
abbrev RStr := List Nat

/-- UTF-8 encoding of a character, as produced by Rust when formatting a
`char` into a `String`. -/
def utf8Encode (c : Char) : List Nat :=
  let n := c.toNat
  if n < 128 then [n]
  else if n < 2048 then [192 + n / 64, 128 + n % 64]
  else if n < 65536 then [224 + n / 4096, 128 + (n / 64) % 64, 128 + n % 64]
  else [240 + n / 262144, 128 + (n / 4096) % 64, 128 + (n / 64) % 64, 128 + n % 64]

/-- Rust `str::is_char_boundary` at byte index `i`: true at the ends, and at a
byte that is not a UTF-8 continuation byte (`(b as i8) >= -0x40`). -/
def isCharBoundary (x : RStr) (i : Nat) : Bool :=
  decide (i = 0) || decide (i = x.length) ||
    decide (x.getD i 0 < 128) || decide (192 ≤ x.getD i 0)

/-- Rust `data.split('\n')` from `Backend::new`: the list of chunks of `data`
separated by line-feed bytes. An empty input yields one empty chunk. -/
def splitLF : List Nat → List RStr
  | [] => [[]]
  | b :: bs =>
    if b = 10 then [] :: splitLF bs
    else (b :: (splitLF bs).headI) :: (splitLF bs).tail

/-- The per-line normalisation in `Backend::new`: if the line's last byte is a
carriage return, drop that one byte. -/
def stripCR (l : RStr) : RStr :=
  if l.getLast? = some 13 then l.dropLast else l

/-- `struct Backend { lines: Vec<String> }` (src/backend.rs). -/
structure Backend where
  lines : List RStr
  deriving DecidableEq, Repr

/-- `Backend::new` (src/backend.rs lines 6-20): split the raw data on
line-feeds and strip one trailing carriage return from each chunk. -/
def Backend.new (data : List Nat) : Backend :=
  ⟨(splitLF data).map stripCR⟩

/-- `Backend::get_row` (src/backend.rs lines 22-24). -/
def Backend.get_row (b : Backend) (i : Nat) : Option RStr :=
  b.lines[i]?

/-- `Backend::row_length` (src/backend.rs lines 26-28). -/
def Backend.row_length (b : Backend) : Nat :=
  b.lines.length

/-- `Backend::insert` (src/backend.rs lines 30-48). A missing row is a silent
no-op. Otherwise: prepend when `i == 0` or the line is empty; append when
`i > len - 1`; else split the line at byte offset `i` and splice the char in.
Rust's `split_at` panics when `i` is not a UTF-8 char boundary; that panic is
modelled as `none`. -/
def Backend.insert (b : Backend) (l i : Nat) (s : Char) : Option Backend :=
  match b.lines[l]? with
  | none => some b
  | some x =>
    if i = 0 ∨ x = [] then
      some ⟨b.lines.set l (utf8Encode s ++ x)⟩
    else if x.length - 1 < i then
      some ⟨b.lines.set l (x ++ utf8Encode s)⟩
    else if isCharBoundary x i then
      some ⟨b.lines.set l (x.take i ++ utf8Encode s ++ x.drop i)⟩
    else none

/-- `struct Coord { col: usize, row: usize }` (src/main.rs lines 10-14). -/
structure Coord where
  col : Nat
  row : Nat
  deriving DecidableEq, Repr

/-- The `Editor` state (src/main.rs lines 16-24), without the terminal
writer `w`, which is an external collaborator. -/
structure Editor where
  backend : Backend
  screen_size : Coord
  visible_cursor : Coord
  cursor : Coord
  offset : Coord
  current_row : Nat
  deriving DecidableEq, Repr

/-- The initial editor state built by `Editor::new` (src/main.rs lines
27-45), with the screen size abstracted as a parameter: all cursor fields
and the offset start at zero. -/
def Editor.init (data : List Nat) (sz : Coord) : Editor :=
  { backend := Backend.new data, screen_size := sz,
    visible_cursor := ⟨0, 0⟩, cursor := ⟨0, 0⟩, offset := ⟨0, 0⟩,
    current_row := 0 }

/-- `Editor::action_up` (src/main.rs lines 105-114). `n` is clamped to
`current_row`; the shortfall of `visible_cursor.row` below `n` is taken out
of `offset.row` (both subtractions saturating). -/
def Editor.action_up (e : Editor) (n0 : Nat) : Editor :=
  let n := min e.current_row n0
  { e with
    current_row := e.current_row - n,
    offset :=
      { e.offset with
        row := if e.visible_cursor.row < n
               then e.offset.row - (n - e.visible_cursor.row)
               else e.offset.row },
    visible_cursor := { e.visible_cursor with row := e.visible_cursor.row - n } }

/-- `Editor::action_down` (src/main.rs lines 116-135). `n` is clamped so
`current_row + n` stays at most `content_row - 1`; the part of
`visible_cursor.row + n` past `screen_size.row - 1` is transferred into
`offset.row`, which is then clamped to `content_row - screen_size.row`;
finally `visible_cursor.row` is clamped to `screen_size.row - 1`.
The Rust body uses unchecked `usize` subtraction in three places; an input
that would make one underflow (a debug-build panic) yields `none`:
`content_row - 1` when the buffer is empty, `n -= ...` when `current_row`
already exceeds `content_row - 1`, `screen_size.row - 1` when the screen has
zero rows, and `content_row - screen_size.row` when the offset clamp fires
with a buffer shorter than the screen. -/
def Editor.action_down (e : Editor) (n0 : Nat) : Option Editor :=
  let content := e.backend.row_length
  if content = 0 then none
  else if content - 1 < e.current_row + n0 ∧
      n0 < e.current_row + n0 - (content - 1) then none
  else
    let n := if content - 1 < e.current_row + n0
             then n0 - (e.current_row + n0 - (content - 1)) else n0
    if e.screen_size.row = 0 then none
    else
      let vrow1 := e.visible_cursor.row + n
      let off1 := e.offset.row + (vrow1 - (e.screen_size.row - 1))
      if content < off1 + e.screen_size.row ∧ content < e.screen_size.row
      then none
      else
        some { e with
          current_row := e.current_row + n,
          offset :=
            { e.offset with
              row := if content < off1 + e.screen_size.row
                     then content - e.screen_size.row else off1 },
          visible_cursor :=
            { e.visible_cursor with row := min vrow1 (e.screen_size.row - 1) } }

/-- `Editor::action_left` (src/main.rs lines 137-140): re-derive the logical
column from the visible one, then subtract saturating. -/
def Editor.action_left (e : Editor) (n : Nat) : Editor :=
  { e with cursor := { e.cursor with col := e.visible_cursor.col - n } }

/-- `Editor::action_right` (src/main.rs lines 142-147): add `n` to the
logical column, clamped to the current line's length; no-op when
`current_row` has no line. -/
def Editor.action_right (e : Editor) (n : Nat) : Editor :=
  match e.backend.get_row e.current_row with
  | some t => { e with cursor := { e.cursor with col := min (e.cursor.col + n) t.length } }
  | none => e

/-- `Editor::normalize_visible_cursor` (src/main.rs lines 149-154):
`visible_cursor.col` becomes the logical column clamped to the current
line's length; no-op when `current_row` has no line. -/
def Editor.normalize_visible_cursor (e : Editor) : Editor :=
  match e.backend.get_row e.current_row with
  | some t =>
    { e with visible_cursor := { e.visible_cursor with col := min e.cursor.col t.length } }
  | none => e

/-- Character input in the run loop (src/main.rs lines 69-73): insert at
`(current_row, visible_cursor.col)`, then `action_right(1)`. A panicking
insert (see `Backend.insert`) yields `none`. -/
def Editor.insert_character (e : Editor) (c : Char) : Option Editor :=
  (e.backend.insert e.current_row e.visible_cursor.col c).map
    (fun b => Editor.action_right { e with backend := b } 1)

/-- One editor operation, as dispatched by the run loop (src/main.rs lines
57-100): a directional move, a character insertion, or the visible-cursor
normalisation performed by `rerender` before drawing. Operations whose Rust
code would panic (`action_down` underflow, `insert` off a char boundary)
produce no transition. -/
inductive Step : Editor → Editor → Prop where
  | up (e : Editor) (n : Nat) : Step e (e.action_up n)
  | down (e e' : Editor) (n : Nat) (h : e.action_down n = some e') : Step e e'
  | left (e : Editor) (n : Nat) : Step e (e.action_left n)
  | right (e : Editor) (n : Nat) : Step e (e.action_right n)
  | insertCh (e e' : Editor) (c : Char) (h : e.insert_character c = some e') : Step e e'
  | renorm (e : Editor) : Step e e.normalize_visible_cursor

/-- States reachable from the initial state for a buffer built by
`Backend.new` from `data` and a fixed screen size `sz`. -/
inductive Reachable (data : List Nat) (sz : Coord) : Editor → Prop where
  | init : Reachable data sz (Editor.init data sz)
  | step {e e' : Editor} : Reachable data sz e → Step e e' → Reachable data sz e'

/-- The invariant relating the viewport fields: the logical row decomposes
as `current_row == offset.row + visible_cursor.row`, the logical row is in
range, and the scroll offset never runs the screen past the last line when
the buffer has at least one screenful of lines. -/
def goodState (e : Editor) : Prop :=
  e.current_row = e.offset.row + e.visible_cursor.row ∧
  e.current_row < e.backend.row_length ∧
  (e.screen_size.row ≤ e.backend.row_length →
    e.offset.row + e.screen_size.row ≤ e.backend.row_length)

/-- One drawing command queued by `Editor::rerender` (src/main.rs lines
165-197): `Print(line)`, `terminal::Clear(ClearType::UntilNewLine)`, the
line break `Print("\r\n")`, or `cursor::MoveTo(col, row)`. -/
inductive Cmd where
  | print (s : RStr)
  | clearUntilNewline
  | crlf
  | moveTo (col row : Nat)
  deriving DecidableEq, Repr

/-- The drawing commands queued by `Editor::rerender` (src/main.rs lines
165-197): normalize the visible cursor, then for each screen row `i` print
`get_row(offset.row + i)` and clear to end of line when the row is present
(emitting `"\r\n"` afterwards when `i < screen_size.row - 1`), or queue a
bare clear when it is absent; finally one
`MoveTo(visible_cursor.col as u16, visible_cursor.row as u16)` (the `u16`
casts truncate mod 2^16). The `Hide`/`MoveTo(0,0)`/`Show` wrapper and the
flush are terminal-driver concerns excluded from the plan. -/
def Editor.rerender (e : Editor) : List Cmd :=
  let s := e.normalize_visible_cursor
  ((List.range s.screen_size.row).foldl (fun acc i =>
      match s.backend.get_row (s.offset.row + i) with
      | some line =>
        acc ++ [Cmd.print line, Cmd.clearUntilNewline] ++
          (if i < s.screen_size.row - 1 then [Cmd.crlf] else [])
      | none => acc ++ [Cmd.clearUntilNewline]) [])
    ++ [Cmd.moveTo (s.visible_cursor.col % 65536) (s.visible_cursor.row % 65536)]

/-- One screen row's draw instruction: a present row is printed then cleared
to end of line; an absent row is a bare clear. -/
def drawInstr (s : Editor) (i : Nat) : List Cmd :=
  match s.backend.get_row (s.offset.row + i) with
  | some line => [Cmd.print line, Cmd.clearUntilNewline]
  | none => [Cmd.clearUntilNewline]

/-- The render plan as claimed: `screen_size.row` draw instructions in row
order, every one of them except the last followed by a line break, then one
cursor-positioning instruction. The code disagrees on absent rows: see
`rerender_breaks_counterexample`. -/
def claimedPlan (e : Editor) : List Cmd :=
  let s := e.normalize_visible_cursor
  ((List.range s.screen_size.row).map (fun i =>
      drawInstr s i ++ (if i < s.screen_size.row - 1 then [Cmd.crlf] else []))).flatten
    ++ [Cmd.moveTo (s.visible_cursor.col % 65536) (s.visible_cursor.row % 65536)]

/-- The render plan as the code emits it: a present row's draw is followed
by a line break exactly when it is not the last screen row, while an absent
row's bare clear is never followed by a line break. -/
def emittedPlan (e : Editor) : List Cmd :=
  let s := e.normalize_visible_cursor
  ((List.range s.screen_size.row).map (fun i =>
      match s.backend.get_row (s.offset.row + i) with
      | some line =>
        [Cmd.print line, Cmd.clearUntilNewline] ++
          (if i < s.screen_size.row - 1 then [Cmd.crlf] else [])
      | none => [Cmd.clearUntilNewline])).flatten
    ++ [Cmd.moveTo (s.visible_cursor.col % 65536) (s.visible_cursor.row % 65536)]

/-- The state of spec Example 1: buffer ["abc", "de"] (from "abc\nde"), a
two-row screen, cursor on row 0 with logical column target 3 (the end of
"abc") already reflected in the visible cursor. -/
def stickyState : Editor :=
  { backend := Backend.new [97, 98, 99, 10, 100, 101], screen_size := ⟨80, 2⟩,
    visible_cursor := ⟨3, 0⟩, cursor := ⟨3, 0⟩, offset := ⟨0, 0⟩,
    current_row := 0 }

lemma splitLF_ne_nil (bs : List Nat) : splitLF bs ≠ [] := by
  cases bs with
  | nil => simp [splitLF]
  | cons b bs => simp only [splitLF]; split <;> simp

lemma splitLF_length (bs : List Nat) :
    (splitLF bs).length = 1 + bs.count 10 := by
  induction bs with
  | nil => simp [splitLF]
  | cons b bs ih =>
    simp only [splitLF, List.count_cons]
    have hpos : 0 < (splitLF bs).length := List.length_pos.mpr (splitLF_ne_nil bs)
    split
    · rename_i hb
      simp only [List.length_cons, ih]
      subst hb
      simp
      omega
    · rename_i hb
      have hne : (10 : Nat) ≠ b := fun h => hb h.symm
      simp only [List.length_cons, List.length_tail]
      rw [if_neg (by simpa using fun h => hb (by omega))]
      omega

lemma Backend.new_row_length (data : List Nat) :
    (Backend.new data).row_length = 1 + data.count 10 := by
  simp [Backend.new, Backend.row_length, splitLF_length]

lemma dropLast_append_of_getLast? {l : RStr} {a : Nat}
    (h : l.getLast? = some a) : l.dropLast ++ [a] = l := by
  induction l with
  | nil => simp at h
  | cons b bs ih =>
    cases bs with
    | nil => simp_all
    | cons c cs =>
      rw [List.getLast?_cons_cons] at h
      simpa using ih h

/-- Claim C6: `construct` yields `1 +` the number of line-feed bytes many
lines (one empty line for empty input), and strips at most one trailing
carriage-return byte from each line: every stored line `l` comes from a raw
chunk `l₀` that either had no trailing CR and is kept whole, or equals
`l ++ [13]` (so a chunk ending in several CRs keeps all but the last). -/
theorem construct_line_count_and_strip (data : List Nat) :
    (Backend.new data).row_length = 1 + data.count 10 ∧
    ∀ (i : Nat) (l : RStr), (Backend.new data).lines[i]? = some l →
      ∃ l₀, (splitLF data)[i]? = some l₀ ∧
        ((l = l₀ ∧ l₀.getLast? ≠ some 13) ∨ l₀ = l ++ [13]) := by
  refine ⟨Backend.new_row_length data, ?_⟩
  intro i l h
  simp only [Backend.new, List.getElem?_map] at h
  cases h₀ : (splitLF data)[i]? with
  | none => rw [h₀] at h; simp at h
  | some l₀ =>
    rw [h₀] at h
    simp only [Option.map_some', Option.some.injEq] at h
    refine ⟨l₀, rfl, ?_⟩
    by_cases hl : l₀.getLast? = some 13
    · right
      rw [stripCR, if_pos hl] at h
      rw [← h]
      exact (dropLast_append_of_getLast? hl).symm
    · left
      rw [stripCR, if_neg hl] at h
      exact ⟨h.symm, hl⟩

/-- Witness for C6, at input "a\r\r\nb" (bytes [97, 13, 13, 10, 98]): the
first stored line [97, 13] comes from the raw chunk [97, 13, 13] with exactly
one trailing CR stripped. -/
theorem construct_line_count_and_strip_witness :
    ∃ l₀, (splitLF [97, 13, 13, 10, 98])[0]? = some l₀ ∧
      (([97, 13] : RStr) = l₀ ∧ l₀.getLast? ≠ some 13 ∨ l₀ = [97, 13] ++ [13]) :=
  (construct_line_count_and_strip [97, 13, 13, 10, 98]).2 0 [97, 13] (by decide)

/-- Claim C7: frame property of `insert`. An out-of-range row leaves the
buffer byte-for-byte unchanged, and whenever the call returns (does not
panic) the line count is unchanged and every row other than the target is
unchanged. -/
theorem insert_frame (b : Backend) (l i : Nat) (c : Char) :
    (b.row_length ≤ l → b.insert l i c = some b) ∧
    (∀ b', b.insert l i c = some b' →
      b'.row_length = b.row_length ∧
      ∀ j, j ≠ l → b'.lines[j]? = b.lines[j]?) := by
  constructor
  · intro hl
    have hx : b.lines[l]? = none := List.getElem?_eq_none hl
    simp [Backend.insert, hx]
  · intro b' h
    cases hx : b.lines[l]? with
    | none =>
      simp only [Backend.insert, hx, Option.some.injEq] at h
      subst h
      exact ⟨rfl, fun j _ => rfl⟩
    | some x =>
      simp only [Backend.insert, hx] at h
      split_ifs at h with h1 h2 h3 <;>
        simp only [Option.some.injEq] at h <;> subst h <;>
        exact ⟨by simp [Backend.row_length],
          fun j hj => List.getElem?_set_ne (Ne.symm hj)⟩

/-- Witness for C7: inserting at row 5 of a one-line buffer is a no-op. -/
theorem insert_frame_witness :
    (Backend.new [97]).insert 5 0 'z' = some (Backend.new [97]) :=
  (insert_frame (Backend.new [97]) 5 0 'z').1 (by decide)

/-- Claim C8: append law. For a stored line `x` of length `L`, inserting at
column `L` and at column `L + k` both succeed and both replace the line with
`x` followed by the character's UTF-8 bytes. -/
theorem insert_append_law (b : Backend) (l : Nat) (x : RStr) (c : Char)
    (k : Nat) (h : b.lines[l]? = some x) :
    b.insert l x.length c = some ⟨b.lines.set l (x ++ utf8Encode c)⟩ ∧
    b.insert l (x.length + k) c = some ⟨b.lines.set l (x ++ utf8Encode c)⟩ := by
  simp only [Backend.insert, h]
  rcases eq_or_ne x [] with rfl | hx
  · simp
  · have hlen : 0 < x.length := List.length_pos.mpr hx
    constructor
    · rw [if_neg (not_or.mpr ⟨by omega, hx⟩), if_pos (by omega)]
    · rw [if_neg (not_or.mpr ⟨by omega, hx⟩), if_pos (by omega)]

/-- Witness for C8, on the buffer ["a"]: inserting 'b' at columns 1 and 3 of
the line [97] both yield the line [97, 98]. -/
theorem insert_append_law_witness :
    (Backend.new [97]).insert 0 (List.length [97]) 'b'
        = some ⟨(Backend.new [97]).lines.set 0 ([97] ++ utf8Encode 'b')⟩ ∧
    (Backend.new [97]).insert 0 (List.length [97] + 2) 'b'
        = some ⟨(Backend.new [97]).lines.set 0 ([97] ++ utf8Encode 'b')⟩ :=
  insert_append_law (Backend.new [97]) 0 [97] 'b' 2 (by decide)

/-- Claim C2 fails on the code: on the buffer whose single line is "é"
(UTF-8 bytes [195, 169]), `insert(0, 1, 'a')` reaches `x.split_at(1)` with
byte index 1 strictly inside the two-byte character, which panics in Rust
("byte index 1 is not a char boundary"); the panic is modelled as `none`.
This state is reachable through the public interface: typing 'é' and then
any character issues exactly this call. -/
theorem insert_multibyte_panic :
    (Backend.new [195, 169]).insert 0 1 'a' = none := by decide

lemma Backend.insert_some_row_length {b b' : Backend} {l i : Nat} {c : Char}
    (h : b.insert l i c = some b') : b'.row_length = b.row_length := by
  cases hx : b.lines[l]? with
  | none =>
    simp only [Backend.insert, hx, Option.some.injEq] at h
    subst h; rfl
  | some x =>
    simp only [Backend.insert, hx] at h
    split_ifs at h <;> simp only [Option.some.injEq] at h <;> subst h <;>
      simp [Backend.row_length]

lemma action_up_fixed (e : Editor) (n : Nat) :
    (e.action_up n).backend = e.backend ∧
    (e.action_up n).screen_size = e.screen_size ∧
    (e.action_up n).cursor = e.cursor ∧
    (e.action_up n).visible_cursor.col = e.visible_cursor.col := by
  exact ⟨rfl, rfl, rfl, rfl⟩

lemma goodState_action_up {e : Editor} (hg : goodState e) (n : Nat) :
    goodState (e.action_up n) := by
  obtain ⟨h1, h2, h3⟩ := hg
  unfold goodState Editor.action_up Backend.row_length at *
  dsimp only
  refine ⟨?_, by omega, fun h => ?_⟩
  · split_ifs <;> omega
  · have h4 := h3 h
    split_ifs <;> omega

lemma action_right_fixed (e : Editor) (n : Nat) :
    (e.action_right n).backend = e.backend ∧
    (e.action_right n).screen_size = e.screen_size ∧
    (e.action_right n).visible_cursor = e.visible_cursor ∧
    (e.action_right n).offset = e.offset ∧
    (e.action_right n).current_row = e.current_row := by
  unfold Editor.action_right
  cases e.backend.get_row e.current_row <;> exact ⟨rfl, rfl, rfl, rfl, rfl⟩

lemma goodState_action_right {e : Editor} (hg : goodState e) (n : Nat) :
    goodState (e.action_right n) := by
  obtain ⟨hb, hs, hv, ho, hc⟩ := action_right_fixed e n
  unfold goodState at *
  rw [hb, hs, hv, ho, hc]
  exact hg

lemma goodState_action_left {e : Editor} (hg : goodState e) (n : Nat) :
    goodState (e.action_left n) :=
  hg

lemma normalize_fixed (e : Editor) :
    e.normalize_visible_cursor.backend = e.backend ∧
    e.normalize_visible_cursor.screen_size = e.screen_size ∧
    e.normalize_visible_cursor.visible_cursor.row = e.visible_cursor.row ∧
    e.normalize_visible_cursor.offset = e.offset ∧
    e.normalize_visible_cursor.current_row = e.current_row := by
  unfold Editor.normalize_visible_cursor
  cases e.backend.get_row e.current_row <;> exact ⟨rfl, rfl, rfl, rfl, rfl⟩

lemma goodState_normalize {e : Editor} (hg : goodState e) :
    goodState e.normalize_visible_cursor := by
  obtain ⟨hb, hs, hv, ho, hc⟩ := normalize_fixed e
  unfold goodState at *
  rw [hb, hs, hv, ho, hc]
  exact hg

lemma goodState_insert_character {e e' : Editor} (hg : goodState e) {c : Char}
    (h : e.insert_character c = some e') : goodState e' := by
  unfold Editor.insert_character at h
  cases hb : e.backend.insert e.current_row e.visible_cursor.col c with
  | none => rw [hb] at h; simp at h
  | some b =>
    rw [hb] at h
    simp only [Option.map_some', Option.some.injEq] at h
    subst h
    apply goodState_action_right
    have hlen := Backend.insert_some_row_length hb
    unfold goodState at *
    dsimp only
    rw [hlen]
    exact hg

lemma goodState_action_down {e e' : Editor} (hg : goodState e) {n : Nat}
    (h : e.action_down n = some e') : goodState e' := by
  obtain ⟨h1, h2, h3⟩ := hg
  simp only [Editor.action_down] at h
  split_ifs at h with hc hun hR hclamp hoff <;>
    try exact Option.noConfusion h
  all_goals obtain rfl := Option.some.inj h
  all_goals unfold goodState Backend.row_length at *
  all_goals dsimp only
  all_goals
    have hRc : e.screen_size.row ≤ e.backend.lines.length := by omega
  all_goals have h4 := h3 hRc
  all_goals exact ⟨by omega, by omega, fun _ => by omega⟩

lemma step_screen_size {e e' : Editor} (hs : Step e e') :
    e'.screen_size = e.screen_size := by
  cases hs with
  | up n => rfl
  | down e2 n h =>
    simp only [Editor.action_down] at h
    split_ifs at h <;> try exact Option.noConfusion h
    all_goals obtain rfl := Option.some.inj h
    all_goals rfl
  | left n => rfl
  | right n => exact (action_right_fixed e n).2.1
  | insertCh e2 c h =>
    unfold Editor.insert_character at h
    cases hb : e.backend.insert e.current_row e.visible_cursor.col c with
    | none => rw [hb] at h; simp at h
    | some b =>
      rw [hb] at h
      simp only [Option.map_some', Option.some.injEq] at h
      subst h
      exact (action_right_fixed _ 1).2.1
  | renorm => exact (normalize_fixed e).2.1

lemma goodState_init (data : List Nat) (sz : Coord) :
    goodState (Editor.init data sz) := by
  have hlen := Backend.new_row_length data
  unfold goodState Editor.init
  dsimp only
  exact ⟨rfl, by omega, fun h => by omega⟩

/-- Every reachable state satisfies the viewport invariant, and no editor
operation changes the screen size. -/
lemma reachable_good {data : List Nat} {sz : Coord} {e : Editor}
    (h : Reachable data sz e) : goodState e ∧ e.screen_size = sz := by
  induction h with
  | init => exact ⟨goodState_init data sz, rfl⟩
  | step hr hs ih =>
    refine ⟨?_, (step_screen_size hs).trans ih.2⟩
    cases hs with
    | up n => exact goodState_action_up ih.1 n
    | down e2 n h => exact goodState_action_down ih.1 h
    | left n => exact goodState_action_left ih.1 n
    | right n => exact goodState_action_right ih.1 n
    | insertCh e2 c h => exact goodState_insert_character ih.1 h
    | renorm => exact goodState_normalize ih.1

/-- Claim C3: starting from the initial state of any constructed buffer,
with the screen size held fixed, every state reachable by editor operations
(in particular by any finite sequence of `move_up`/`move_down` calls with
arbitrary arguments — calls whose Rust code would panic produce no state)
keeps `current_row` within `[0, row_length() - 1]`, and keeps
`offset.row + screen_size.row <= row_length()` whenever
`row_length() >= screen_size.row`. -/
theorem reachable_row_invariants (data : List Nat) (sz : Coord) (e : Editor)
    (hr : Reachable data sz e) (_hR : 1 ≤ sz.row) :
    e.current_row ≤ e.backend.row_length - 1 ∧
    (sz.row ≤ e.backend.row_length →
      e.offset.row + sz.row ≤ e.backend.row_length) := by
  obtain ⟨⟨h1, h2, h3⟩, hsz⟩ := reachable_good hr
  rw [← hsz]
  exact ⟨by omega, h3⟩

/-- Witness for C3 at the initial state of the buffer "a\nb" with a 2-row
screen. -/
theorem reachable_row_invariants_witness :
    (Editor.init [97, 10, 98] ⟨80, 2⟩).current_row
      ≤ (Editor.init [97, 10, 98] ⟨80, 2⟩).backend.row_length - 1 ∧
    ((⟨80, 2⟩ : Coord).row ≤ (Editor.init [97, 10, 98] ⟨80, 2⟩).backend.row_length →
      (Editor.init [97, 10, 98] ⟨80, 2⟩).offset.row + (⟨80, 2⟩ : Coord).row
        ≤ (Editor.init [97, 10, 98] ⟨80, 2⟩).backend.row_length) :=
  reachable_row_invariants [97, 10, 98] ⟨80, 2⟩ _ Reachable.init (by decide)

/-- Claim C4: in every state reachable from the initial state by move and
insert operations (with the screen size held fixed),
`current_row == offset.row + visible_cursor.row`. -/
theorem reachable_cursor_decomposition (data : List Nat) (sz : Coord)
    (e : Editor) (hr : Reachable data sz e) (_hR : 1 ≤ sz.row) :
    e.current_row = e.offset.row + e.visible_cursor.row :=
  (reachable_good hr).1.1

/-- Witness for C4: the state after `move_down(1)` from the initial state of
the buffer "a\nb" with a 2-row screen still decomposes `current_row` as
`offset.row + visible_cursor.row`. -/
theorem reachable_cursor_decomposition_witness :
    ({ backend := Backend.new [97, 10, 98], screen_size := ⟨80, 2⟩,
       visible_cursor := ⟨0, 1⟩, cursor := ⟨0, 0⟩, offset := ⟨0, 0⟩,
       current_row := 1 } : Editor).current_row
      = ({ backend := Backend.new [97, 10, 98], screen_size := ⟨80, 2⟩,
           visible_cursor := ⟨0, 1⟩, cursor := ⟨0, 0⟩, offset := ⟨0, 0⟩,
           current_row := 1 } : Editor).offset.row
        + ({ backend := Backend.new [97, 10, 98], screen_size := ⟨80, 2⟩,
             visible_cursor := ⟨0, 1⟩, cursor := ⟨0, 0⟩, offset := ⟨0, 0⟩,
             current_row := 1 } : Editor).visible_cursor.row :=
  reachable_cursor_decomposition [97, 10, 98] ⟨80, 2⟩ _
    (Reachable.step Reachable.init (Step.down _ _ 1 (by decide))) (by decide)

/-- Claim C10: the buffer is never empty at the public interface: every
constructed buffer has at least one line, a returning `insert` never changes
the line count, and hence every reachable state has `row_length() >= 1` —
so the empty-buffer underflow branch of `move_down` is unreachable. -/
theorem buffer_never_empty :
    (∀ data : List Nat, 1 ≤ (Backend.new data).row_length) ∧
    (∀ (b b' : Backend) (l i : Nat) (c : Char),
        b.insert l i c = some b' → b'.row_length = b.row_length) ∧
    (∀ (data : List Nat) (sz : Coord) (e : Editor),
        Reachable data sz e → 1 ≤ e.backend.row_length) := by
  refine ⟨fun data => ?_, fun b b' l i c h => Backend.insert_some_row_length h,
    fun data sz e hr => ?_⟩
  · have := Backend.new_row_length data
    omega
  · have := (reachable_good hr).1.2.1
    omega

/-- Witness for C10: a state one insertion after the initial state of the
empty buffer still has at least one line. -/
theorem buffer_never_empty_witness :
    1 ≤ (Editor.init [] ⟨80, 24⟩).backend.row_length :=
  buffer_never_empty.2.2 [] ⟨80, 24⟩ _ Reachable.init

/-- Claim C5: sticky-column behaviour. `action_up` and `action_down` never
modify the logical column target `cursor.col`; `normalize_visible_cursor`
sets `visible_cursor.col` to `min(cursor.col, length of the current line)`;
and on the buffer ["abc", "de"] with `cursor.col == 3` on row 0,
`move_down(1)` then normalisation shows visible column 2 with `cursor.col`
still 3, and moving back up to "abc" restores visible column 3. -/
theorem sticky_column :
    (∀ (e : Editor) (n : Nat), (e.action_up n).cursor.col = e.cursor.col) ∧
    (∀ (e e' : Editor) (n : Nat), e.action_down n = some e' →
      e'.cursor.col = e.cursor.col) ∧
    (∀ (e : Editor) (t : RStr), e.backend.get_row e.current_row = some t →
      e.normalize_visible_cursor.visible_cursor.col = min e.cursor.col t.length) ∧
    ((stickyState.action_down 1).map (fun u =>
        (u.normalize_visible_cursor.visible_cursor.col,
         u.normalize_visible_cursor.cursor.col,
         (u.normalize_visible_cursor.action_up 1).normalize_visible_cursor.visible_cursor.col,
         (u.normalize_visible_cursor.action_up 1).normalize_visible_cursor.cursor.col))
      = some (2, 3, 3, 3)) := by
  refine ⟨fun e n => rfl, fun e e' n h => ?_, fun e t h => ?_, by decide⟩
  · simp only [Editor.action_down] at h
    split_ifs at h <;> try exact Option.noConfusion h
    all_goals obtain rfl := Option.some.inj h
    all_goals rfl
  · simp [Editor.normalize_visible_cursor, h]

/-- Witness for C5: normalising the example state itself keeps the visible
column at `min 3 3 = 3`. -/
theorem sticky_column_witness :
    stickyState.normalize_visible_cursor.visible_cursor.col
      = min stickyState.cursor.col (List.length [97, 98, 99]) :=
  sticky_column.2.2.1 stickyState [97, 98, 99] (by decide)

/-- Claim C1 fails on the code: with the 5-line buffer built from
"a\nb\nc\nd\ne" and a 10-row screen, `move_down(3)` from the initial state
reaches the offset clamp (`0 + 10 > 5`) and evaluates
`content_row - screen_size.row = 5 - 10` in `usize`, which underflows:
a debug build panics instead of leaving `offset.row == 0` and
`visible_cursor.row == 3` (a release build wraps `offset.row` to 2^64 - 5).
The underflow is modelled as `none`. -/
theorem move_down_short_buffer_underflow :
    (Editor.init [97, 10, 98, 10, 99, 10, 100, 10, 101] ⟨80, 10⟩).action_down 3
      = none := by
  decide

lemma foldl_render (g : Nat → Option RStr) (R : Nat) (l : List Nat) :
    ∀ acc : List Cmd,
      (l.foldl (fun acc i =>
        match g i with
        | some line =>
          acc ++ [Cmd.print line, Cmd.clearUntilNewline] ++
            (if i < R - 1 then [Cmd.crlf] else [])
        | none => acc ++ [Cmd.clearUntilNewline]) acc)
      = acc ++ (l.map (fun i =>
          match g i with
          | some line =>
            [Cmd.print line, Cmd.clearUntilNewline] ++
              (if i < R - 1 then [Cmd.crlf] else [])
          | none => [Cmd.clearUntilNewline])).flatten := by
  induction l with
  | nil => intro acc; simp
  | cons x xs ih =>
    intro acc
    simp only [List.foldl_cons, List.map_cons, List.flatten_cons, ih]
    cases h : g x <;> simp [h, List.append_assoc]

/-- Claim C9, amended: the commands queued by `rerender` are exactly
`screen_size.row` draw instructions in row order — `print` plus
clear-to-end-of-line for a present row, a bare clear for an absent row —
where a draw is followed by a line break iff its row is present and not the
last screen row (absent rows are never followed by a break), then exactly
one cursor-positioning instruction at the normalized
`(visible_cursor.col, visible_cursor.row)`, each truncated mod 2^16 by the
`u16` casts. -/
theorem rerender_plan_shape (e : Editor) : e.rerender = emittedPlan e := by
  simp only [Editor.rerender, emittedPlan]
  exact congrArg (· ++ [Cmd.moveTo _ _])
    ((foldl_render
        (fun i => e.normalize_visible_cursor.backend.get_row
          (e.normalize_visible_cursor.offset.row + i))
        e.normalize_visible_cursor.screen_size.row
        (List.range e.normalize_visible_cursor.screen_size.row) []).trans
      (List.nil_append _))

/-- Claim C9 as stated is false: with the one-line buffer "a" and a 3-row
screen, the second screen row is absent, and the code does not follow its
bare clear with a line break, while the claimed plan would (only the last
draw may lack the break per the claim). -/
theorem rerender_breaks_counterexample :
    (Editor.init [97] ⟨80, 3⟩).rerender
      ≠ claimedPlan (Editor.init [97] ⟨80, 3⟩) := by
  decide

end Jim
